import Mathlib

/-!
Verification of the scenarigo deferred-value synchronization core
(`template/lazy.go`) and path-aware error model (`errors/error.go`)
against its natural-language specification.

The Go code is shallowly embedded: goroutine/channel state is made
explicit in `WaitCtx`, the nondeterminism of a two-way `select` is a
boolean choice parameter, mutation in place is modelled by returning the
updated structure, and a call that would block forever is `Option.none`.
-/

namespace Scenarigo

/-- Values flowing through the template engine (shallow model of Go `any`). -/
inductive Val where
  | vstr : String → Val
  | vnat : Nat → Val
  | vpair : Val → Val → Val
deriving DecidableEq, Repr

/-- `waitContext` (template/lazy.go lines 60-66).
`readySlot` is the content of the capacity-1 `ready` channel, `setDone`
the `setOnce` guard, `blockedClosed` whether `cancel()` of the `block`
context has run (i.e. the `blocked` channel is closed), and
`extractMemo` the memo of `sync.OnceValues` for `extractActualValue`. -/
structure WaitCtx where
  base : List (String × Val)
  readySlot : Option Val
  setDone : Bool
  blockedClosed : Bool
  extractMemo : Option (Option Val × Bool)
deriving DecidableEq, Repr

/-- `newWaitContext` (template/lazy.go lines 68-92): empty ready channel,
set-once guard unused, blocked channel still open, extraction not yet
memoized. -/
def newWaitContext (base : List (String × Val)) : WaitCtx :=
  { base := base
    readySlot := none
    setDone := false
    blockedClosed := false
    extractMemo := none }

/-- `waitContext.set` (template/lazy.go lines 94-104): the `setOnce.Do`
body sends `v` into the capacity-1 `ready` channel on the first call
only; a later call leaves the state untouched and returns the error
`"set an actual value twice"`. -/
def WaitCtx.set (c : WaitCtx) (v : Val) : Option String × WaitCtx :=
  if c.setDone then
    (some "set an actual value twice", c)
  else
    (none, { c with setDone := true, readySlot := some v })

/-- The branch of `extractActualValue` taken when `ctx.Done()` fires
(template/lazy.go lines 79-86): a non-blocking recheck of `ready`, so an
already-delivered value still wins over cancellation. -/
def doneBranch (ready : Option Val) : Option Val × Bool :=
  match ready with
  | some v => (some v, true)
  | none => (none, false)

/-- The `select` inside `extractActualValue` (template/lazy.go lines
76-87). `ready` and `ctxDone` are the channel states when the select
resolves; `choice` decides the race when both branches are runnable
(`true` picks the `ready` branch). `none` means neither branch is
runnable, i.e. the select blocks. -/
def selectReadyOrDone (ready : Option Val) (ctxDone choice : Bool) :
    Option (Option Val × Bool) :=
  match ready, ctxDone with
  | some v, false => some (some v, true)
  | some v, true => some (if choice then (some v, true) else doneBranch (some v))
  | none, true => some (doneBranch none)
  | none, false => none

/-- `waitContext.extractActualValue` (template/lazy.go lines 74-88),
wrapped in `sync.OnceValues`: the first call runs `cancel()` (closing
the blocked channel) and then the select; later calls replay the
memoized pair. `none` models the first call blocking (nothing ready and
no deadline yet). Taking a value from `ready` drains the channel. -/
def WaitCtx.extractActualValue (c : WaitCtx) (ctxDone choice : Bool) :
    Option ((Option Val × Bool) × WaitCtx) :=
  match c.extractMemo with
  | some m => some (m, c)
  | none =>
    match selectReadyOrDone c.readySlot ctxDone choice with
    | none => none
    | some r =>
      some (r, { c with
        blockedClosed := true
        extractMemo := some r
        readySlot := if r.2 then none else c.readySlot })

/-- The external `queryutil.New().Key(key).Extract` lookup on the base
data, modelled as association-list lookup. -/
def lookupKey (base : List (String × Val)) (k : String) : Option Val :=
  (base.find? (fun p => p.1 == k)).map Prod.snd

/-- `waitContext.ExtractByKey` (template/lazy.go lines 106-117): the key
`"$"` dereferences the actual value; any other key is an ordinary
lookup on the embedded base data, returning `(nil, false)` on error. -/
def WaitCtx.ExtractByKey (c : WaitCtx) (key : String) (ctxDone choice : Bool) :
    Option ((Option Val × Bool) × WaitCtx) :=
  if key = "$" then
    c.extractActualValue ctxDone choice
  else
    match lookupKey c.base key with
    | some res => some ((some res, true), c)
    | none => some ((none, false), c)

/-- Modelled from the spec: a `TemplateExpression` is "a value (scalar,
mapping, or sequence) that may contain embedded expression markers",
"structurally recursive: mappings/sequences are evaluated element-wise".
The source of `Template.execute` is not part of the repository slice, so
expressions are modelled as literals, key dereferences resolved through
`ExtractByKey` (the marker is the key `"$"`), and binary aggregation
standing for mapping/sequence nodes. -/
inductive Expr where
  | lit : Expr
  | litv : Val → Expr
  | key : String → Expr
  | node : Expr → Expr → Expr
deriving DecidableEq, Repr

/-- Whether evaluating the expression dereferences the actual-value
marker, i.e. performs an `ExtractByKey "$"`. -/
def derefsMarker : Expr → Bool
  | .lit => false
  | .litv _ => false
  | .key k => k == "$"
  | .node a b => derefsMarker a || derefsMarker b

/-- Modelled from the spec: the run of `Template.execute` (not in the
repository slice) against a `waitContext`. "Only the placeholder-
resolution step inside the Template Engine suspends; all other template
evaluation is synchronous, non-suspending", so the run is a function of
the schedule seen at the (memoized) extraction point. `none` = the run
is still blocked inside `extractActualValue`; re-running after the
ready slot is filled models resuming, which agrees because evaluation
before the suspension point is deterministic and does not mutate the
`waitContext`. -/
def runEval : Expr → WaitCtx → Bool → Bool → Option (Except String Val × WaitCtx)
  | .lit, wc, _, _ => some (.ok (Val.vstr ""), wc)
  | .litv v, wc, _, _ => some (.ok v, wc)
  | .key k, wc, d, ch =>
    match wc.ExtractByKey k d ch with
    | none => none
    | some ((some v, _), wc1) => some (.ok v, wc1)
    | some ((none, _), wc1) => some (.error ("failed to get the value for the key " ++ k), wc1)
  | .node a b, wc, d, ch =>
    match runEval a wc d ch with
    | none => none
    | some (.error m, wc1) => some (.error m, wc1)
    | some (.ok va, wc1) =>
      match runEval b wc1 d ch with
      | none => none
      | some (.error m, wc2) => some (.error m, wc2)
      | some (.ok vb, wc2) => some (.ok (Val.vpair va vb), wc2)

/-- The state captured by the `Lazy` closure of `executeLazyTemplate`
(template/lazy.go lines 22-38): the `sync.Once` guard, the captured
`waitContext`, and the template/data pair needed for re-execution. -/
structure LazyState where
  onceUsed : Bool
  wc : WaitCtx
  e : Expr
  base : List (String × Val)
deriving DecidableEq, Repr

deriving instance DecidableEq for Except

/-- Result of `executeLazyTemplate`: either the concrete result read
from the completion channel, or a `Lazy`. -/
inductive ExecLazyResult where
  | done : Except String Val → ExecLazyResult
  | lazyFn : LazyState → ExecLazyResult
deriving DecidableEq, Repr

/-- The `waitContext` as it stands while the evaluator is parked inside
its first `extractActualValue` call: `cancel()` has closed the blocked
channel, nothing else changed. -/
def wcAtBlock (wc : WaitCtx) : WaitCtx :=
  { wc with blockedClosed := true }

/-- `Template.executeLazyTemplate` (template/lazy.go lines 15-40):
spawn the evaluator over a fresh `waitContext` and race the completion
channel against the blocked channel. If the evaluator blocks at the
marker, the blocked channel is the only one ready and a `Lazy` is
returned. If the evaluator completes, the completion channel fires; the
blocked channel may also already be closed (the evaluator dereferenced
the marker and still finished, e.g. under an expired deadline), in
which case `outerChoice = true` models the select picking the blocked
branch. -/
def executeLazyTemplate (e : Expr) (base : List (String × Val))
    (ctxDone choice outerChoice : Bool) : ExecLazyResult :=
  let wc := newWaitContext base
  match runEval e wc ctxDone choice with
  | none => .lazyFn { onceUsed := false, wc := wcAtBlock wc, e := e, base := base }
  | some (r, wc1) =>
    if wc1.blockedClosed && outerChoice then
      .lazyFn { onceUsed := false, wc := wc1, e := e, base := base }
    else
      .done r

/-- An invocation of the `Lazy` closure (template/lazy.go lines 23-38):
the first invocation (`once.Do` still fresh) reuses the captured,
already-running evaluation's `waitContext`; from the second time
onwards `executeTemplate` is re-run with a fresh `waitContext` over the
same data. Then `set` delivers the value (an error is returned without
waiting for completion) and the completion channel is read; reading it
is modelled by (re-)running the deterministic evaluator. `none` models
an invocation that blocks forever. -/
def invokeLazy (st : LazyState) (v : Val) (ctxDone choice : Bool) :
    Option (Except String Val × LazyState) :=
  let c := if st.onceUsed then newWaitContext st.base else st.wc
  match c.set v with
  | (some err, c1) => some (.error err, { st with onceUsed := true, wc := c1 })
  | (none, c1) =>
    match runEval st.e c1 ctxDone choice with
    | none => none
    | some (r, c2) => some (r, { st with onceUsed := true, wc := c2 })

/-- External `ast.Node` (go-yaml), used by the error model only through
`PathError.yml`: parse `"$" + Path`, filter the node, print the token
with the color flag. All three external steps are modelled as one
excerpt oracle: for a `(query, colored)` pair, the printed excerpt, or
nothing when the path does not parse or the node is not found. -/
structure Node where
  excerpts : List ((String × Bool) × String)
deriving DecidableEq, Repr

/-- Go `error` values reachable in errors/error.go: the nil error,
a plain error (`errors.New` / `fmt.Errorf`), a `pkg/errors` wrapper
(message plus cause, supports `Unwrap`), `PathError` (Path, Node,
EnabledColor, Err) and `MultiPathError` (Node, Errs). -/
inductive GoErr where
  | nilE : GoErr
  | base : String → GoErr
  | wrapped : String → GoErr → GoErr
  | path : String → Option Node → Bool → GoErr → GoErr
  | multi : Option Node → List GoErr → GoErr
deriving Repr

/-- Whether the error is the nil error. -/
def isNilE : GoErr → Bool
  | .nilE => true
  | _ => false

/-- Whether `errors.As(err, &e)` with `e` of interface type `Error`
succeeds: the unwrap chain (only the `pkg/errors` wrapper has `Unwrap`)
reaches a `PathError` or `MultiPathError`. -/
def hasError : GoErr → Bool
  | .nilE => false
  | .base _ => false
  | .wrapped _ inner => hasError inner
  | .path _ _ _ _ => true
  | .multi _ _ => true

/-- Whether `errors.As(err, &e)` with `e` of type `*MultiPathError`
succeeds: a `PathError` matches neither the target nor `Unwrap`, so the
chain only reaches a `MultiPathError` through `pkg/errors` wrappers. -/
def hasMulti : GoErr → Bool
  | .nilE => false
  | .base _ => false
  | .wrapped _ inner => hasMulti inner
  | .path _ _ _ _ => false
  | .multi _ _ => true

/-- The element assigned by a successful `errors.As(err, &e)` for the
`Error` interface: the first `PathError`/`MultiPathError` of the chain. -/
def findErrorNode : GoErr → Option GoErr
  | .nilE => none
  | .base _ => none
  | .wrapped _ inner => findErrorNode inner
  | .path p n col cause => some (.path p n col cause)
  | .multi n cs => some (.multi n cs)

/-- `pkgerrors.Wrapf(err, ...)`: nil stays nil, anything else gets a
message-and-stack wrapper. -/
def pkgWrapf (msg : String) : GoErr → GoErr
  | .nilE => .nilE
  | e => .wrapped msg e

mutual

/-- The `Error.appendPath` dispatch applied in place to the first
`PathError`/`MultiPathError` of the chain (identity when `errors.As`
fails, which is the `continue` in `MultiPathError.appendPath`,
errors/error.go lines 243-251): `PathError.appendPath` (lines 172-174)
prepends the segment to `Path`; `MultiPathError.appendPath` recurses
into each child. -/
def appendPathAs (pre : String) : GoErr → GoErr
  | .nilE => .nilE
  | .base s => .base s
  | .wrapped m inner => .wrapped m (appendPathAs pre inner)
  | .path p n col cause => .path (pre ++ p) n col cause
  | .multi n cs => .multi n (appendPathChildren pre cs)

/-- The loop body of `MultiPathError.appendPath` (errors/error.go lines
244-250) over the child list. -/
def appendPathChildren (pre : String) : List GoErr → List GoErr
  | [] => []
  | c :: rest => appendPathAs pre c :: appendPathChildren pre rest

end

mutual

/-- The `Error.setNodeAndColored` dispatch applied in place to the first
`PathError`/`MultiPathError` of the chain (identity when `errors.As`
fails): `PathError.setNodeAndColored` (errors/error.go lines 180-183)
overwrites Node and EnabledColor; `MultiPathError.setNodeAndColored`
(lines 264-272) recurses into each child, leaving its own Node field
untouched. -/
def setNodeAndColoredAs (nd : Option Node) (col : Bool) : GoErr → GoErr
  | .nilE => .nilE
  | .base s => .base s
  | .wrapped m inner => .wrapped m (setNodeAndColoredAs nd col inner)
  | .path p _ _ cause => .path p nd col cause
  | .multi n cs => .multi n (setNodeChildren nd col cs)

/-- The loop body of `MultiPathError.setNodeAndColored` (errors/error.go
lines 265-271) over the child list. -/
def setNodeChildren (nd : Option Node) (col : Bool) : List GoErr → List GoErr
  | [] => []
  | c :: rest => setNodeAndColoredAs nd col c :: setNodeChildren nd col rest

end

mutual

/-- `Wrapf` (errors/error.go lines 95-104). When `errors.As` finds an
`Error` in the chain, its `wrapf` runs in place and that found element
is returned (wrappers above it are dropped from the return value):
`PathError.wrapf` (lines 176-178) wraps its own `Err`;
`MultiPathError.wrapf` (lines 253-262) tests each child with
`errors.As(err, &e)` whose target is the *receiver* (`**MultiPathError`)
and, on success, calls `wrapf` on the never-assigned nil interface
`pathErr` — a panic, modelled as `none`; otherwise the child slot is
replaced by `Wrapf(child, ...)`. When `errors.As` fails, a fresh
`PathError` around `pkgerrors.Wrapf(err, ...)` is built. -/
def Wrapf (msg : String) : GoErr → Option GoErr
  | .wrapped m inner =>
    if hasError inner then Wrapf msg inner
    else some (.path "" none false (pkgWrapf msg (.wrapped m inner)))
  | .path p n col cause => (Wrapf msg cause).map (fun c => .path p n col c)
  | .multi n cs => (wrapfChildren msg cs).map (fun l => .multi n l)
  | e => some (.path "" none false (pkgWrapf msg e))

/-- The loop body of `MultiPathError.wrapf` (errors/error.go lines
254-261) over the child list: panic (`none`) on a child matching the
`**MultiPathError` target, else replace the slot with `Wrapf(child)`. -/
def wrapfChildren (msg : String) : List GoErr → Option (List GoErr)
  | [] => some []
  | c :: rest =>
    if hasMulti c then none
    else
      match Wrapf msg c, wrapfChildren msg rest with
      | some c1, some l => some (c1 :: l)
      | _, _ => none

end

/-- `WithPath` (errors/error.go lines 120-131): if the chain holds an
`Error`, `appendPath` mutates it in place and that element is returned;
otherwise a fresh `PathError` with the dot-prefixed segment wraps the
error. -/
def WithPath (err : GoErr) (path : String) : GoErr :=
  match findErrorNode err with
  | some e => appendPathAs ("." ++ path) e
  | none => .path ("." ++ path) none false err

/-- `WithNodeAndColored` (errors/error.go lines 146-154): if the chain
holds an `Error`, `setNodeAndColored` mutates it in place and that
element is returned; otherwise the error is returned untouched. -/
def WithNodeAndColored (err : GoErr) (nd : Node) (col : Bool) : GoErr :=
  match findErrorNode err with
  | some e => setNodeAndColoredAs (some nd) col e
  | none => err

/-- `Errors` (errors/error.go lines 60-66). -/
def Errors (errs : List GoErr) : Option GoErr :=
  if errs.length = 0 then none else some (.multi none errs)

/-- `PathError.yml` (errors/error.go lines 185-199) through the excerpt
oracle of the attached node. -/
def ymlOf (n : Option Node) (p : String) (col : Bool) : String :=
  match n with
  | none => ""
  | some nd =>
    match (nd.excerpts.find? (fun q => q.1 == ("$" ++ p, col))).map Prod.snd with
    | none => ""
    | some y => y

/-- `strings.TrimLeft(s, "\t")`. -/
def trimLeftTabs (s : String) : String :=
  s.dropWhile (fun ch => ch == '\t')

/-- The custom `ErrorFormat` given to `multierror.Error` in
`MultiPathError.Error` (errors/error.go lines 224-237), applied to the
already-trimmed child messages. -/
def listPointsFormat (pts : List String) : String :=
  match pts with
  | [p] => "1 error occurred:" ++ p ++ "\n\n"
  | _ => toString pts.length ++ " errors occurred:" ++ String.intercalate "\n" pts ++ "\n\n"

mutual

/-- `Error()` of each error variant: plain message for `errors.New`,
`"msg: cause"` for the `pkg/errors` wrapper, `PathError.Error`
(errors/error.go lines 201-213) with its excerpt/path/bare precedence,
and `MultiPathError.Error` (lines 221-241) via `multierror.Append`
(which drops nil children) and the custom format. `Error()` on a nil
error would panic in Go and is rendered as the empty string. -/
def GoErr.errorMsg : GoErr → String
  | .nilE => ""
  | .base s => s
  | .wrapped m inner => m ++ ": " ++ inner.errorMsg
  | .path p n col cause =>
    let y := ymlOf n p col
    if y ≠ "" then
      "\n" ++ (if y.endsWith "\n" then y else y ++ "\n") ++ cause.errorMsg
    else if p ≠ "" then p ++ ": " ++ cause.errorMsg
    else cause.errorMsg
  | .multi _ cs => listPointsFormat (errorMsgPoints cs)

/-- The rendered points of `MultiPathError.Error`: `multierror.Append`
drops nil children, each remaining message is trimmed of leading tabs. -/
def errorMsgPoints : List GoErr → List String
  | [] => []
  | c :: rest =>
    if isNilE c then errorMsgPoints rest
    else trimLeftTabs c.errorMsg :: errorMsgPoints rest

end

/-! Witness-support states: the `waitContext` of a `Lazy` parked at the
marker over empty base data, and the states after its first invocation
with the values 1 and 2. -/

def stW : LazyState := ⟨false, ⟨[], none, false, true, none⟩, .key "$", []⟩

def stW1 : LazyState := ⟨true, ⟨[], none, true, true, some (some (.vnat 1), true)⟩, .key "$", []⟩

def stW2 : LazyState := ⟨true, ⟨[], none, true, true, some (some (.vnat 2), true)⟩, .key "$", []⟩

/-- The `waitContext` after delivering the value 5 into a fresh one and
then extracting it. -/
def cAfterW : WaitCtx := ⟨[], none, true, true, some (some (.vnat 5), true)⟩

section Theorems

/-- Helper: a run that never dereferences the marker completes and
leaves the `waitContext` untouched (no extraction is performed). -/
theorem runEval_no_marker (e : Expr) (d ch : Bool) :
    ∀ wc : WaitCtx, derefsMarker e = false →
      ∃ r, runEval e wc d ch = some (r, wc) := by
  induction e with
  | lit => exact fun wc _ => ⟨.ok (Val.vstr ""), rfl⟩
  | litv v => exact fun wc _ => ⟨.ok v, rfl⟩
  | key k =>
    intro wc hm
    simp [derefsMarker] at hm
    cases hl : lookupKey wc.base k with
    | none =>
      exact ⟨.error ("failed to get the value for the key " ++ k), by
        simp [runEval, WaitCtx.ExtractByKey, hm, hl]⟩
    | some v =>
      exact ⟨.ok v, by simp [runEval, WaitCtx.ExtractByKey, hm, hl]⟩
  | node a b iha ihb =>
    intro wc hm
    simp [derefsMarker] at hm
    obtain ⟨ra, hra⟩ := iha wc hm.1
    cases ra with
    | error m => exact ⟨.error m, by simp [runEval, hra]⟩
    | ok va =>
      obtain ⟨rb, hrb⟩ := ihb wc hm.2
      cases rb with
      | error m => exact ⟨.error m, by simp [runEval, hra, hrb]⟩
      | ok vb => exact ⟨.ok (Val.vpair va vb), by simp [runEval, hra, hrb]⟩

/-- C1: for every `waitContext`, the first call to `set v` returns nil
and delivers `v` into the ready slot; every later call returns the
`"set an actual value twice"` error without touching the state, so a
subsequent extraction of the actual value yields the first value. -/
theorem set_first_delivers_then_twice_error
    (base : List (String × Val)) (v w : Val) (c : WaitCtx)
    (hc : c.setDone = true) (d ch : Bool) :
    ((newWaitContext base).set v).1 = none ∧
    ((newWaitContext base).set v).2.readySlot = some v ∧
    ((newWaitContext base).set v).2.setDone = true ∧
    (c.set w).1 = some "set an actual value twice" ∧
    (c.set w).2 = c ∧
    ((((newWaitContext base).set v).2.set w).2.extractActualValue d ch).map Prod.fst
        = some (some v, true) := by
  refine ⟨rfl, rfl, rfl, ?_, ?_, ?_⟩
  · simp [WaitCtx.set, hc]
  · simp [WaitCtx.set, hc]
  · cases d <;> cases ch <;>
      simp [newWaitContext, WaitCtx.set, WaitCtx.extractActualValue,
        selectReadyOrDone, doneBranch]

/-- Witness for C1 at concrete inputs. -/
theorem set_first_delivers_then_twice_error_witness :
    ((((newWaitContext []).set (.vnat 1)).2.set (.vnat 2)).2.extractActualValue
        true false).map Prod.fst = some (some (.vnat 1), true) :=
  (set_first_delivers_then_twice_error [] (.vnat 1) (.vnat 2)
    ((newWaitContext []).set (.vnat 1)).2 rfl true false).2.2.2.2.2

/-- C2: a template whose evaluation never dereferences the actual-value
marker (key `"$"`) makes `executeLazyTemplate` return the concrete
result of running the template, never a `Lazy`: the blocked channel is
only closed by the first `extractActualValue`, so the completion
channel wins the select. -/
theorem executeLazy_no_marker_done (e : Expr) (base : List (String × Val))
    (d ch oc : Bool) (hm : derefsMarker e = false) :
    ∃ r, runEval e (newWaitContext base) d ch = some (r, newWaitContext base) ∧
      executeLazyTemplate e base d ch oc = .done r := by
  obtain ⟨r, hr⟩ := runEval_no_marker e d ch (newWaitContext base) hm
  refine ⟨r, hr, ?_⟩
  have hr2 := hr
  simp only [newWaitContext] at hr2
  simp [executeLazyTemplate, newWaitContext, hr2]

/-- Witness for C2 at a concrete marker-free template. -/
theorem executeLazy_no_marker_done_witness :
    derefsMarker (.key "x") = false ∧
    ∃ r, runEval (.key "x") (newWaitContext [("x", .vnat 7)]) false false
          = some (r, newWaitContext [("x", .vnat 7)]) ∧
      executeLazyTemplate (.key "x") [("x", .vnat 7)] false false true = .done r :=
  ⟨rfl, executeLazy_no_marker_done (.key "x") [("x", .vnat 7)] false false true rfl⟩

/-- Helper: a `Lazy` returned by `executeLazyTemplate` has a fresh
`sync.Once` guard and captures the template and data it was created
over. -/
theorem executeLazy_lazyFn_inv (e : Expr) (base : List (String × Val))
    (d ch oc : Bool) (st : LazyState)
    (h : executeLazyTemplate e base d ch oc = .lazyFn st) :
    st.onceUsed = false ∧ st.e = e ∧ st.base = base := by
  simp only [executeLazyTemplate] at h
  cases hrun : runEval e (newWaitContext base) d ch with
  | none =>
    rw [hrun] at h
    simp only [ExecLazyResult.lazyFn.injEq] at h
    subst h
    exact ⟨rfl, rfl, rfl⟩
  | some p =>
    obtain ⟨r, wc1⟩ := p
    rw [hrun] at h
    simp only [] at h
    split at h
    · simp only [ExecLazyResult.lazyFn.injEq] at h
      subst h
      exact ⟨rfl, rfl, rfl⟩
    · exact absurd h (by simp)

/-- Helper: any completed invocation of a `Lazy` consumes the
`sync.Once` guard and keeps the captured template and data. -/
theorem invokeLazy_state_inv (st : LazyState) (v : Val) (d ch : Bool)
    (r : Except String Val) (st1 : LazyState)
    (h : invokeLazy st v d ch = some (r, st1)) :
    st1.onceUsed = true ∧ st1.e = st.e ∧ st1.base = st.base := by
  simp only [invokeLazy] at h
  cases hset : (if st.onceUsed then newWaitContext st.base else st.wc).set v with
  | mk fst snd =>
    rw [hset] at h
    cases fst with
    | some err =>
      simp only [Option.some.injEq, Prod.mk.injEq] at h
      obtain ⟨-, h2⟩ := h
      subst h2
      exact ⟨rfl, rfl, rfl⟩
    | none =>
      dsimp only at h
      cases hrun : runEval st.e snd d ch with
      | none => rw [hrun] at h; exact absurd h (by simp)
      | some p =>
        rw [hrun] at h
        obtain ⟨r2, c2⟩ := p
        simp only [Option.some.injEq, Prod.mk.injEq] at h
        obtain ⟨-, h2⟩ := h
        subst h2
        exact ⟨rfl, rfl, rfl⟩

/-- Helper: an invocation of a spent `Lazy` (the `sync.Once` guard
already used) re-executes over a fresh `waitContext` on the captured
data, so it is a function of the captured template, the data and the
newly supplied value only. -/
theorem invokeLazy_used_eq (st : LazyState) (v : Val) (d ch : Bool)
    (hu : st.onceUsed = true) :
    invokeLazy st v d ch =
      (runEval st.e ((newWaitContext st.base).set v).2 d ch).map
        (fun p => (p.1, ⟨true, p.2, st.e, st.base⟩)) := by
  obtain ⟨u, wc0, e0, b0⟩ := st
  simp only at hu
  subst hu
  simp only [invokeLazy, if_true, newWaitContext, WaitCtx.set]
  simp only [Bool.false_eq_true, if_false]
  cases hrun : runEval e0
      { base := b0, readySlot := some v, setDone := true, blockedClosed := false,
        extractMemo := none } d ch with
  | none => simp [hrun]
  | some p => simp [hrun]

/-- C3: for a `Lazy` returned by `executeLazyTemplate`, the first
invocation supplies its value into the already-running evaluation's
`waitContext` (the guard is fresh), while every invocation after the
first re-executes with a fresh `waitContext` and completion channel
over the same data, so a second invocation with `v2` yields the result
of a fresh evaluation that depends only on `v2`, not on the first
invocation's value. -/
theorem lazy_second_invocation_fresh
    (e : Expr) (base : List (String × Val))
    (d ch oc d1 ch1 d1' ch1' d2 ch2 : Bool)
    (st st1 st1' : LazyState) (v1 v1' v2 : Val) (r1 r1' : Except String Val)
    (h : executeLazyTemplate e base d ch oc = .lazyFn st)
    (h1 : invokeLazy st v1 d1 ch1 = some (r1, st1))
    (h1' : invokeLazy st v1' d1' ch1' = some (r1', st1')) :
    st.onceUsed = false ∧ st.e = e ∧ st.base = base ∧
    st1.onceUsed = true ∧ st1'.onceUsed = true ∧
    invokeLazy st1 v2 d2 ch2 = invokeLazy st1' v2 d2 ch2 ∧
    (invokeLazy st1 v2 d2 ch2).map Prod.fst =
      (runEval e ((newWaitContext base).set v2).2 d2 ch2).map Prod.fst := by
  obtain ⟨h0, he, hb⟩ := executeLazy_lazyFn_inv e base d ch oc st h
  obtain ⟨h1u, h1e, h1b⟩ := invokeLazy_state_inv st v1 d1 ch1 r1 st1 h1
  obtain ⟨h1u', h1e', h1b'⟩ := invokeLazy_state_inv st v1' d1' ch1' r1' st1' h1'
  refine ⟨h0, he, hb, h1u, h1u', ?_, ?_⟩
  · rw [invokeLazy_used_eq st1 v2 d2 ch2 h1u, invokeLazy_used_eq st1' v2 d2 ch2 h1u',
      h1e, h1e', h1b, h1b']
  · rw [invokeLazy_used_eq st1 v2 d2 ch2 h1u, h1e, h1b, he, hb]
    cases runEval e ((newWaitContext base).set v2).2 d2 ch2 <;> simp

/-- Witness for C3: two different first values, the same second value,
identical second results. -/
theorem lazy_second_invocation_fresh_witness :
    invokeLazy stW1 (.vnat 3) false false = invokeLazy stW2 (.vnat 3) false false ∧
    (invokeLazy stW1 (.vnat 3) false false).map Prod.fst = some (.ok (.vnat 3)) := by
  have h := lazy_second_invocation_fresh (.key "$") [] false false true
    false false false false false false stW stW1 stW2
    (.vnat 1) (.vnat 2) (.vnat 3) (.ok (.vnat 1)) (.ok (.vnat 2)) rfl rfl rfl
  exact ⟨h.2.2.2.2.2.1, by rw [h.2.2.2.2.2.2]; rfl⟩

/-- C4: `extractActualValue` resolves the race between value delivery
and deadline expiry: a filled ready slot always yields `(value, true)`,
even when the deadline context is already done (cancellation never
retracts a delivered value); an empty slot with the deadline done
yields `(nil, false)`. -/
theorem extract_value_beats_deadline (c : WaitCtx) (v : Val) (d ch : Bool)
    (hm : c.extractMemo = none) :
    (c.readySlot = some v →
      (c.extractActualValue d ch).map Prod.fst = some (some v, true)) ∧
    (c.readySlot = none →
      (c.extractActualValue true ch).map Prod.fst = some (none, false)) := by
  constructor
  · intro hr
    cases d <;> cases ch <;>
      simp [WaitCtx.extractActualValue, hm, hr, selectReadyOrDone, doneBranch]
  · intro hr
    cases ch <;>
      simp [WaitCtx.extractActualValue, hm, hr, selectReadyOrDone, doneBranch]

/-- Witness for C4: the delivered value wins even with the deadline
done; with no value and the deadline done the extraction fails. -/
theorem extract_value_beats_deadline_witness :
    ((((newWaitContext []).set (.vnat 5)).2.extractActualValue true true).map Prod.fst
        = some (some (.vnat 5), true)) ∧
    (((newWaitContext []).extractActualValue true false).map Prod.fst
        = some (none, false)) :=
  ⟨(extract_value_beats_deadline ((newWaitContext []).set (.vnat 5)).2
      (.vnat 5) true true rfl).1 rfl,
   (extract_value_beats_deadline (newWaitContext []) (.vnat 5) true false rfl).2 rfl⟩

/-- C5: the blocked signal fires at most once, on the first
`extractActualValue` call: a memoized call replays the same result
without touching the state, a first call with nothing available blocks
(after closing the blocked channel), and after any completed first call
the blocked channel is closed, the result is memoized, and every later
call is idempotent. -/
theorem blocked_signal_fires_once (c : WaitCtx) (d ch d2 ch2 : Bool) :
    (∀ m, c.extractMemo = some m → c.extractActualValue d ch = some (m, c)) ∧
    (c.extractMemo = none → c.readySlot = none → d = false →
      c.extractActualValue d ch = none) ∧
    (∀ r c1, c.extractMemo = none → c.extractActualValue d ch = some (r, c1) →
      c1.blockedClosed = true ∧ c1.extractMemo = some r ∧
      c1.extractActualValue d2 ch2 = some (r, c1)) := by
  refine ⟨?_, ?_, ?_⟩
  · intro m hm
    simp [WaitCtx.extractActualValue, hm]
  · intro hm hr hd
    subst hd
    simp [WaitCtx.extractActualValue, hm, hr, selectReadyOrDone]
  · intro r c1 hm h
    simp only [WaitCtx.extractActualValue, hm] at h
    cases hsel : selectReadyOrDone c.readySlot d ch with
    | none => rw [hsel] at h; exact absurd h (by simp)
    | some r0 =>
      rw [hsel] at h
      simp only [Option.some.injEq, Prod.mk.injEq] at h
      obtain ⟨hr0, hc1⟩ := h
      subst hr0
      subst hc1
      exact ⟨rfl, rfl, by simp [WaitCtx.extractActualValue]⟩

/-- Witness for C5: a fresh extraction with nothing available blocks; a
completed one closes the blocked channel, memoizes, and replays. -/
theorem blocked_signal_fires_once_witness :
    ((newWaitContext []).extractActualValue false false = none) ∧
    (cAfterW.blockedClosed = true ∧
      cAfterW.extractMemo = some (some (.vnat 5), true) ∧
      cAfterW.extractActualValue true false = some ((some (.vnat 5), true), cAfterW)) :=
  ⟨(blocked_signal_fires_once (newWaitContext []) false false false false).2.1 rfl rfl rfl,
   (blocked_signal_fires_once ((newWaitContext []).set (.vnat 5)).2 false false true false).2.2
      (some (.vnat 5), true) cAfterW rfl (by rfl)⟩

/-- Helper: when no element of the unwrap chain implements `Error`,
`errors.As` assigns nothing. -/
theorem findErrorNode_eq_none :
    ∀ c : GoErr, hasError c = false → findErrorNode c = none
  | .nilE, _ => rfl
  | .base _, _ => rfl
  | .wrapped _ inner, h => findErrorNode_eq_none inner h
  | .path _ _ _ _, h => by simp [hasError] at h
  | .multi _ _, h => by simp [hasError] at h

/-- Helper: `appendPath` dispatch is the identity on an error whose
chain holds no `Error` (the `continue` case). -/
theorem appendPathAs_no_error (pre : String) :
    ∀ c : GoErr, hasError c = false → appendPathAs pre c = c
  | .nilE, _ => rfl
  | .base _, _ => rfl
  | .wrapped m inner, h => by
    simp [appendPathAs, appendPathAs_no_error pre inner h]
  | .path _ _ _ _, h => by simp [hasError] at h
  | .multi _ _, h => by simp [hasError] at h

/-- Helper: `setNodeAndColored` dispatch is the identity on an error
whose chain holds no `Error` (the `continue` case). -/
theorem setNodeAndColoredAs_no_error (nd : Option Node) (col : Bool) :
    ∀ c : GoErr, hasError c = false → setNodeAndColoredAs nd col c = c
  | .nilE, _ => rfl
  | .base _, _ => rfl
  | .wrapped m inner, h => by
    simp [setNodeAndColoredAs, setNodeAndColoredAs_no_error nd col inner h]
  | .path _ _ _ _, h => by simp [hasError] at h
  | .multi _ _, h => by simp [hasError] at h

/-- Helper: `Wrapf` on an error whose chain holds no `Error` builds a
fresh `PathError` around a `pkg/errors` wrap — it never returns the
error untouched. -/
theorem Wrapf_no_error (msg : String) :
    ∀ c : GoErr, hasError c = false →
      Wrapf msg c = some (.path "" none false (pkgWrapf msg c))
  | .nilE, _ => rfl
  | .base _, _ => rfl
  | .wrapped m inner, h => by
    have h2 : hasError inner = false := h
    simp [Wrapf, h2]
  | .path _ _ _ _, h => by simp [hasError] at h
  | .multi _ _, h => by simp [hasError] at h

/-- C6 counterexample: `MultiPathError.wrapf` does not leave a
non-conforming child untouched (the slot is replaced by a fresh
`PathError` wrap), and on a child that is itself a `MultiPathError` it
calls `wrapf` on the nil interface `pathErr` (a panic) instead of
recursing into it. -/
theorem multi_wrapf_counterexample :
    Wrapf "m" (.multi none [.base "x"])
      = some (.multi none [.path "" none false (.wrapped "m" (.base "x"))]) ∧
    Wrapf "m" (.multi none [.base "x"]) ≠ some (.multi none [.base "x"]) ∧
    Wrapf "m" (.multi none [.multi none [.base "y"]]) = none := by
  have he : Wrapf "m" (.multi none [.base "x"])
      = some (.multi none [.path "" none false (.wrapped "m" (.base "x"))]) := rfl
  refine ⟨he, ?_, rfl⟩
  rw [he]
  simp

/-- C6 (amended): `MultiPathError.appendPath` and
`MultiPathError.setNodeAndColored` recurse into every child whose chain
implements the `Error` capability set and leave every non-conforming
child untouched; `MultiPathError.wrapf` instead panics on any child
whose chain contains a `MultiPathError` and replaces every other child
slot with `Wrapf(child, msg)`, which wraps a non-conforming child in a
fresh `PathError` rather than leaving it untouched. -/
theorem multiPathError_ops_dispatch (pre msg : String) (nd : Option Node)
    (col : Bool) (n : Option Node) (cs : List GoErr) :
    (appendPathAs pre (.multi n cs) = .multi n (appendPathChildren pre cs) ∧
      ∀ c, hasError c = false → appendPathAs pre c = c) ∧
    (setNodeAndColoredAs nd col (.multi n cs) = .multi n (setNodeChildren nd col cs) ∧
      ∀ c, hasError c = false → setNodeAndColoredAs nd col c = c) ∧
    (Wrapf msg (.multi n cs) = (wrapfChildren msg cs).map (fun l => .multi n l) ∧
      (∀ c rest, hasMulti c = true → wrapfChildren msg (c :: rest) = none) ∧
      (∀ c, hasError c = false →
        Wrapf msg c = some (.path "" none false (pkgWrapf msg c)))) := by
  refine ⟨⟨rfl, appendPathAs_no_error pre⟩,
    ⟨rfl, setNodeAndColoredAs_no_error nd col⟩,
    ⟨rfl, ?_, Wrapf_no_error msg⟩⟩
  intro c rest hmul
  simp [wrapfChildren, hmul]

/-- Witness for the amended C6 at concrete children. -/
theorem multiPathError_ops_dispatch_witness :
    appendPathAs ".p" (.base "x") = .base "x" ∧
    wrapfChildren "m" [.multi none []] = none ∧
    Wrapf "m" (.base "x") = some (.path "" none false (pkgWrapf "m" (.base "x"))) :=
  ⟨(multiPathError_ops_dispatch ".p" "m" none false none []).1.2 (.base "x") rfl,
   (multiPathError_ops_dispatch ".p" "m" none false none []).2.2.2.1 (.multi none []) [] rfl,
   (multiPathError_ops_dispatch ".p" "m" none false none []).2.2.2.2 (.base "x") rfl⟩

/-- C7 counterexample: for an error already carrying a path, the two
`WithPath` applications prepend in front of the existing path, so the
render does not begin with `".foo.bar"` directly followed by `": "` and
the original message. -/
theorem withPath_twice_counterexample :
    (WithPath (WithPath (.path ".x" none false (.base "m")) "bar") "foo").errorMsg
      = ".foo.bar.x: m" ∧
    (WithPath (WithPath (.path ".x" none false (.base "m")) "bar") "foo").errorMsg
      ≠ ".foo.bar" ++ ": " ++ (GoErr.path ".x" none false (.base "m")).errorMsg := by
  refine ⟨rfl, by decide⟩

/-- C7 (amended): for every error whose unwrap chain holds no
`PathError`/`MultiPathError`, `WithPath(WithPath(err, "bar"), "foo")`
builds a `PathError` whose path is `".foo.bar"` (the outer wrap
prepends) and renders as `".foo.bar: "` followed by the original
message; in general each `WithPath` application prepends its
dot-prefixed segment to the existing path. -/
theorem withPath_twice_prepends (err : GoErr) (h : hasError err = false) :
    WithPath (WithPath err "bar") "foo" = .path ".foo.bar" none false err ∧
    (WithPath (WithPath err "bar") "foo").errorMsg = ".foo.bar: " ++ err.errorMsg ∧
    ∀ p n col cause s,
      WithPath (.path p n col cause) s = .path ("." ++ s ++ p) n col cause := by
  have h1 : WithPath err "bar" = .path ".bar" none false err := by
    simp [WithPath, findErrorNode_eq_none err h]
  have h2 : WithPath (WithPath err "bar") "foo" = .path ".foo.bar" none false err := by
    rw [h1]
    rfl
  refine ⟨h2, ?_, fun p n col cause s => rfl⟩
  rw [h2]
  rfl

/-- Witness for the amended C7 at a plain error. -/
theorem withPath_twice_prepends_witness :
    WithPath (WithPath (.base "m") "bar") "foo" = .path ".foo.bar" none false (.base "m") ∧
    (WithPath (WithPath (.base "m") "bar") "foo").errorMsg = ".foo.bar: m" := by
  have h := withPath_twice_prepends (.base "m") rfl
  exact ⟨h.1, by rw [h.2.1]; rfl⟩

/-- C8: `PathError.Error` renders with this precedence: a producible
excerpt (node attached, path printable) yields the excerpt — newline
terminated, on its own lines — followed by the wrapped cause's message;
otherwise a non-empty path yields `"path: message"`; otherwise the bare
cause's message. -/
theorem pathError_error_rendering (p : String) (n : Option Node) (col : Bool)
    (cause : GoErr) :
    (∀ y, ymlOf n p col = y → y ≠ "" →
      (GoErr.path p n col cause).errorMsg
        = "\n" ++ (if y.endsWith "\n" then y else y ++ "\n") ++ cause.errorMsg) ∧
    (ymlOf n p col = "" → p ≠ "" →
      (GoErr.path p n col cause).errorMsg = p ++ ": " ++ cause.errorMsg) ∧
    (ymlOf n p col = "" → p = "" →
      (GoErr.path p n col cause).errorMsg = cause.errorMsg) := by
  refine ⟨?_, ?_, ?_⟩
  · intro y hy hne
    simp [GoErr.errorMsg, hy, hne]
  · intro hy hp
    simp [GoErr.errorMsg, hy, hp]
  · intro hy hp
    subst hp
    simp [GoErr.errorMsg, hy]

/-- Witness for C8 covering all three precedence branches. -/
theorem pathError_error_rendering_witness :
    (GoErr.path ".p" (some ⟨[(("$.p", true), "EXC")]⟩) true (.base "m")).errorMsg
        = "\n" ++ (if ("EXC").endsWith "\n" then "EXC" else "EXC" ++ "\n") ++ "m" ∧
    (GoErr.path ".p" none false (.base "m")).errorMsg = ".p" ++ ": " ++ "m" ∧
    (GoErr.path "" none false (.base "m")).errorMsg = "m" :=
  ⟨(pathError_error_rendering ".p" (some ⟨[(("$.p", true), "EXC")]⟩) true
      (.base "m")).1 "EXC" rfl (by decide),
   (pathError_error_rendering ".p" none false (.base "m")).2.1 rfl (by decide),
   (pathError_error_rendering "" none false (.base "m")).2.2 rfl rfl⟩

/-- C9: `Errors` returns nil on the empty argument list and otherwise a
non-nil `MultiPathError` whose `Errs` field is exactly the given errors
in the given order (nil errors included, since the children are
unconstrained). -/
theorem errors_constructor :
    Errors [] = none ∧
    ∀ (c : GoErr) (rest : List GoErr),
      Errors (c :: rest) = some (.multi none (c :: rest)) := by
  refine ⟨rfl, fun c rest => ?_⟩
  simp [Errors]

/-- C10 counterexample: on a `pkg/errors`-wrapped `PathError`,
`WithNodeAndColored` returns the inner `PathError` (node set), which is
neither the argument itself nor the argument mutated in place. -/
theorem withNodeAndColored_counterexample :
    WithNodeAndColored (.wrapped "m" (.path ".p" none false (.base "x"))) ⟨[]⟩ true
      = .path ".p" (some ⟨[]⟩) true (.base "x") ∧
    WithNodeAndColored (.wrapped "m" (.path ".p" none false (.base "x"))) ⟨[]⟩ true
      ≠ .wrapped "m" (.path ".p" none false (.base "x")) ∧
    WithNodeAndColored (.wrapped "m" (.path ".p" none false (.base "x"))) ⟨[]⟩ true
      ≠ .wrapped "m" (.path ".p" (some ⟨[]⟩) true (.base "x")) := by
  have he : WithNodeAndColored (.wrapped "m" (.path ".p" none false (.base "x"))) ⟨[]⟩ true
      = .path ".p" (some ⟨[]⟩) true (.base "x") := rfl
  refine ⟨he, ?_, ?_⟩
  · rw [he]
    intro h
    exact GoErr.noConfusion h
  · rw [he]
    intro h
    exact GoErr.noConfusion h

/-- C10 (amended): `WithNodeAndColored` never constructs a fresh
`PathError`: when the chain holds no `Error` it returns the error
unchanged; otherwise it applies `setNodeAndColored` to the first
`Error` of the chain and returns that error — the argument itself
exactly when the argument directly is a `PathError`/`MultiPathError`. -/
theorem withNodeAndColored_dispatch (err : GoErr) (nd : Node) (col : Bool) :
    (hasError err = false → WithNodeAndColored err nd col = err) ∧
    (∀ p n0 c0 cause, err = .path p n0 c0 cause →
      WithNodeAndColored err nd col = .path p (some nd) col cause) ∧
    (∀ n0 cs, err = .multi n0 cs →
      WithNodeAndColored err nd col = .multi n0 (setNodeChildren (some nd) col cs)) := by
  refine ⟨?_, ?_, ?_⟩
  · intro h
    simp [WithNodeAndColored, findErrorNode_eq_none err h]
  · intro p n0 c0 cause he
    subst he
    rfl
  · intro n0 cs he
    subst he
    rfl

/-- Witness for the amended C10. -/
theorem withNodeAndColored_dispatch_witness :
    WithNodeAndColored (.base "x") ⟨[]⟩ true = .base "x" ∧
    WithNodeAndColored (.path ".p" none false (.base "x")) ⟨[]⟩ true
      = .path ".p" (some ⟨[]⟩) true (.base "x") :=
  ⟨(withNodeAndColored_dispatch (.base "x") ⟨[]⟩ true).1 rfl,
   (withNodeAndColored_dispatch (.path ".p" none false (.base "x")) ⟨[]⟩ true).2.1
      ".p" none false (.base "x") rfl⟩

end Theorems

end Scenarigo
